import Mathlib

/-!
Shallow embedding of the product CRUD server (src/server.js).

JavaScript numbers are modelled as rationals (`ℚ`); the special value NaN is
modelled as `none` in `Option ℚ` results of numeric coercion.  JSON request
bodies cannot contain `undefined`, so an absent object field is modelled as
`none` in `Option JVal`.  Each HTTP handler re-reads the persisted document and
(for mutations) writes it back in full, so a handler is modelled as a pure
function from the persisted product list (plus its inputs) to a response
together with the new persisted product list.
-/

/-- A JSON-ish JavaScript value as it occurs in this program.  The only arrays
the program stores are image URL lists, so array elements are strings. -/
inductive JVal where
  | jnum (q : ℚ)
  | jstr (s : String)
  | jarr (elems : List String)
  | jbool (b : Bool)
  | jnull
deriving DecidableEq, Repr, Inhabited

/-- JavaScript truthiness of a defined value. -/
def truthyV : JVal → Bool
  | JVal.jnum q => q != 0
  | JVal.jstr s => s != ""
  | JVal.jarr _ => true
  | JVal.jbool b => b
  | JVal.jnull => false

/-- JavaScript truthiness of a possibly-undefined value (`undefined` is falsy). -/
def truthy : Option JVal → Bool
  | none => false
  | some v => truthyV v

/-- `v || d` in JavaScript: the value itself when truthy, else the default. -/
def jsOrD (v : Option JVal) (d : JVal) : JVal :=
  match v with
  | none => d
  | some x => if truthyV x then x else d

/-- Value of a digit character. -/
def digitVal (c : Char) : Nat := c.toNat - 48

/-- Natural number denoted by a digit list (most significant first). -/
def natOfDigits (cs : List Char) : Nat :=
  cs.foldl (fun acc c => acc * 10 + digitVal c) 0

/-- Parse an unsigned decimal numeral `digits [ . digits ]` (at least one digit
overall), as JavaScript `Number` does for the decimal strings this program can
meet.  `none` models NaN.  Exponent and non-decimal forms are not used by any
input considered here and are out of the modelled grammar. -/
def parseUnsigned (cs : List Char) : Option ℚ :=
  let ip := cs.takeWhile (fun c => c.isDigit)
  let rest := cs.dropWhile (fun c => c.isDigit)
  match rest with
  | [] => if ip.isEmpty then none else some (natOfDigits ip)
  | '.' :: frac =>
      if frac.all (fun c => c.isDigit) && (!ip.isEmpty || !frac.isEmpty) then
        some ((natOfDigits ip : ℚ) + (natOfDigits frac : ℚ) / ((10 : ℚ) ^ frac.length))
      else none
  | _ => none

/-- Strip leading and trailing whitespace from a character list. -/
def trimChars (cs : List Char) : List Char :=
  ((cs.dropWhile (fun c => c.isWhitespace)).reverse.dropWhile
    (fun c => c.isWhitespace)).reverse

/-- JavaScript `Number(s)` for a string `s` (`none` models NaN): surrounding
whitespace is ignored, the empty string is 0, an optional sign precedes an
unsigned decimal numeral. -/
def jsStrToNum (s : String) : Option ℚ :=
  match trimChars s.toList with
  | [] => some 0
  | '-' :: rest => (parseUnsigned rest).map (fun q => -q)
  | '+' :: rest => parseUnsigned rest
  | cs => parseUnsigned cs

/-- JavaScript `Number(v)` for a defined value (`none` models NaN).  For an
array, `Number` goes through its comma-joined string form: the empty array is
0, a one-element array is the number of its element, longer arrays contain a
comma and are NaN. -/
def jsNumberV : JVal → Option ℚ
  | JVal.jnum q => some q
  | JVal.jstr s => jsStrToNum s
  | JVal.jarr [] => some 0
  | JVal.jarr [x] => jsStrToNum x
  | JVal.jarr (_ :: _ :: _) => none
  | JVal.jbool b => some (if b then 1 else 0)
  | JVal.jnull => some 0

/-- JavaScript `Number(v)` where `v` may be `undefined` (NaN). -/
def jsNumber : Option JVal → Option ℚ
  | none => none
  | some v => jsNumberV v

/-- JavaScript `Number(v) || 0`: NaN (and 0 itself) becomes 0. -/
def jsNumOr0 (v : Option JVal) : ℚ := (jsNumber v).getD 0

/-- JavaScript strict equality `===` between two numeric coercions; any NaN
side makes it false. -/
def numEq (a b : Option ℚ) : Bool :=
  match a, b with
  | some x, some y => x == y
  | _, _ => false

/-- `q || 0` applied to an always-defined number: only 0 is falsy here. -/
def jsOrZero (q : ℚ) : ℚ := if q = 0 then 0 else q

/-- ASCII lowercasing, as `toLowerCase` acts on the ASCII data of this
program. -/
def lowerStr (s : String) : String := String.map Char.toLower s

/-- `pre` is a prefix of `l` (character lists). -/
def prefChars : List Char → List Char → Bool
  | [], _ => true
  | _ :: _, [] => false
  | c :: cs, d :: ds => c == d && prefChars cs ds

/-- `term` occurs as a contiguous substring of `hay` (character lists). -/
def subChars (term : List Char) : List Char → Bool
  | [] => prefChars term []
  | d :: ds => prefChars term (d :: ds) || subChars term ds

/-- JavaScript `hay.includes(term)`. -/
def includesStr (hay term : String) : Bool := subChars term.toList hay.toList

/-- The string content of a value the program reads as a string.  The handlers
only call string methods on string values (a non-string would raise a TypeError
in JavaScript); theorems about the text filter therefore restrict product
fields to string-or-absent, where this is exact. -/
def valStr : JVal → String
  | JVal.jstr s => s
  | _ => ""

/-- A stored product record or request body: each of the ten known fields is
present (`some`) or absent (`none`). -/
structure Obj where
  id : Option JVal := none
  title : Option JVal := none
  description : Option JVal := none
  price : Option JVal := none
  category : Option JVal := none
  subcategory : Option JVal := none
  images : Option JVal := none
  likes : Option JVal := none
  dislikes : Option JVal := none
  createdAt : Option JVal := none
deriving DecidableEq, Repr, Inhabited

/-- One field of the object-spread merge `{...prev, ...patch}`: the patch field
wins when present. -/
def ovr (prev patch : Option JVal) : Option JVal :=
  match patch with
  | some v => some v
  | none => prev

/-- Shallow merge `{...prev, ...patch}` over the product schema. -/
def mergeObj (prev patch : Obj) : Obj :=
  { id := ovr prev.id patch.id
    title := ovr prev.title patch.title
    description := ovr prev.description patch.description
    price := ovr prev.price patch.price
    category := ovr prev.category patch.category
    subcategory := ovr prev.subcategory patch.subcategory
    images := ovr prev.images patch.images
    likes := ovr prev.likes patch.likes
    dislikes := ovr prev.dislikes patch.dislikes
    createdAt := ovr prev.createdAt patch.createdAt }

/-- `Number(x.id) || 0`, the per-item contribution inside `nextId`. -/
def idNum (x : Obj) : ℚ := jsNumOr0 x.id

/-- src/server.js lines 62-64:
`(items.reduce((m, x) => Math.max(m, Number(x.id) || 0), 0) || 0) + 1`. -/
def nextId (items : List Obj) : ℚ :=
  jsOrZero (items.foldl (fun m x => max m (idNum x)) 0) + 1

/-- `Array.isArray(v) ? v : []`. -/
def arrOrEmpty (v : JVal) : JVal :=
  match v with
  | JVal.jarr xs => JVal.jarr xs
  | _ => JVal.jarr []

/-- Outcome of the POST handler. -/
inductive CreateRes where
  | badRequest
  | created (p : Obj)
deriving DecidableEq, Repr

/-- src/server.js lines 93-110, the POST /api/products handler.  `now` is the
value of `Date.now()` at the request. -/
def createP (now : ℚ) (body : Obj) (prods : List Obj) : CreateRes × List Obj :=
  if !truthy body.title || !truthy body.category then
    (CreateRes.badRequest, prods)
  else
    let images := (body.images).getD (JVal.jarr [])
    let prod : Obj :=
      { id := some (JVal.jnum (nextId prods))
        title := body.title
        description := some (jsOrD body.description (JVal.jstr ""))
        price := some (JVal.jnum (jsNumOr0 body.price))
        category := body.category
        subcategory := some (jsOrD body.subcategory (JVal.jstr ""))
        images := some (arrOrEmpty images)
        likes := some (JVal.jnum 0)
        dislikes := some (JVal.jnum 0)
        createdAt := some (JVal.jnum now) }
    (CreateRes.created prod, prods ++ [prod])

/-- `Number(p.id) === idN`, the match predicate of the PUT and DELETE
handlers (`idN` is the coerced path parameter). -/
def idMatches (idN : Option ℚ) (p : Obj) : Bool := numEq (jsNumber p.id) idN

/-- Outcome of the PUT handler. -/
inductive UpdateRes where
  | notFound
  | updated (p : Obj)
deriving DecidableEq, Repr

/-- src/server.js lines 112-122, the PUT /api/products/:id handler.  The path
parameter arrives as a string and is coerced with `Number`. -/
def updateP (idParam : String) (body : Obj) (prods : List Obj) : UpdateRes × List Obj :=
  let idN : Option ℚ := jsStrToNum idParam
  match prods.findIdx? (fun p => idMatches idN p) with
  | none => (UpdateRes.notFound, prods)
  | some i =>
      let prev := prods.getD i default
      let next : Obj := { mergeObj prev body with id := prev.id }
      (UpdateRes.updated next, prods.set i next)

/-- Outcome of the DELETE handler. -/
inductive DeleteRes where
  | notFound
  | noContent
deriving DecidableEq, Repr

/-- src/server.js lines 124-132, the DELETE /api/products/:id handler.  On the
not-found path the handler returns before `db.write()`, so the persisted list
(and, since the filter removed nothing, the in-memory list as well) is the
input list. -/
def deleteP (idParam : String) (prods : List Obj) : DeleteRes × List Obj :=
  let idN : Option ℚ := jsStrToNum idParam
  let remaining := prods.filter (fun p => !idMatches idN p)
  if remaining.length = prods.length then (DeleteRes.notFound, prods)
  else (DeleteRes.noContent, remaining)

/-- Truthiness of an optional query-string parameter (`undefined` and the empty
string are falsy). -/
def qTruthy : Option String → Bool
  | none => false
  | some s => s != ""

/-- Sort key `Number(p.price || 0)` used by the price comparators.  For the
numeric-or-absent prices the theorems consider this is exact; a NaN outcome
(whose comparator behaviour JavaScript leaves unspecified) is collapsed to 0. -/
def priceKey (p : Obj) : ℚ := (jsNumberV (jsOrD p.price (JVal.jnum 0))).getD 0

/-- Sort key `Number(p.createdAt || 0)` used by the default comparator. -/
def createdKey (p : Obj) : ℚ := (jsNumberV (jsOrD p.createdAt (JVal.jnum 0))).getD 0

/-- src/server.js lines 86-88: the three sort modes.  The JavaScript numeric
comparator sorts into (some) order consistent with the key; this is modelled
with `mergeSort` on the same key order, which realises exactly the guaranteed
contract (a sorted permutation, ties in unspecified order). -/
def sortItems (s : String) (items : List Obj) : List Obj :=
  if s = "price-asc" then
    items.mergeSort (fun a b => decide (priceKey a ≤ priceKey b))
  else if s = "price-desc" then
    items.mergeSort (fun a b => decide (priceKey b ≤ priceKey a))
  else
    items.mergeSort (fun a b => decide (createdKey b ≤ createdKey a))

/-- Predicate of the text filter `q`: case-insensitive substring match of the
lowercased term against lowercased `p.title || ''` or `p.description || ''`. -/
def textMatch (term : String) (p : Obj) : Bool :=
  includesStr (lowerStr (valStr (jsOrD p.title (JVal.jstr "")))) term ||
  includesStr (lowerStr (valStr (jsOrD p.description (JVal.jstr "")))) term

/-- src/server.js lines 77-85: the three optional filters, applied to a copy of
the stored list in source order (category, then subcategory, then text
query). -/
def applyFilters (q c sc : Option String) (prods : List Obj) : List Obj :=
  let items0 := prods
  let items1 :=
    if qTruthy c then items0.filter (fun p => p.category == some (JVal.jstr (c.getD "")))
    else items0
  let items2 :=
    if qTruthy sc then items1.filter (fun p => p.subcategory == some (JVal.jstr (sc.getD "")))
    else items1
  if qTruthy q then
    let term := lowerStr (q.getD "")
    items2.filter (fun p => textMatch term p)
  else items2

/-- src/server.js lines 72-91, the GET /api/products handler: copy the stored
list, filter, sort, return the items; the stored list is not written back. -/
def listP (q c sc sortQ : Option String) (prods : List Obj) : List Obj × List Obj :=
  (sortItems (sortQ.getD "newest") (applyFilters q c sc prods), prods)

/-- src/server.js lines 26-51, the two seed records.  `now1` and `now2` are the
two `Date.now()` values. -/
def seedProducts (now1 now2 : ℚ) : List Obj :=
  [ { id := some (JVal.jnum 1)
      title := some (JVal.jstr "iPhone 13 Pro")
      description := some (JVal.jstr "Excellent condition, 256GB, Graphite.")
      price := some (JVal.jnum 799.0)
      category := some (JVal.jstr "Electronics")
      subcategory := some (JVal.jstr "Smartphones & Tablets")
      images := some (JVal.jarr ["https://images.unsplash.com/photo-1603899124210-36e0f7a5a8f0?w=1200"])
      likes := some (JVal.jnum 12)
      dislikes := some (JVal.jnum 1)
      createdAt := some (JVal.jnum now1) },
    { id := some (JVal.jnum 2)
      title := some (JVal.jstr "Gaming Chair")
      description := some (JVal.jstr "Ergonomic chair, adjustable armrests.")
      price := some (JVal.jnum 149.99)
      category := some (JVal.jstr "Home & Garden")
      subcategory := some (JVal.jstr "Furniture")
      images := some (JVal.jarr ["https://images.unsplash.com/photo-1582582494700-1b1a3e6a96d2?w=1200"])
      likes := some (JVal.jnum 3)
      dislikes := some (JVal.jnum 0)
      createdAt := some (JVal.jnum now2) } ]

/-- src/server.js lines 25-53, the bootstrap seeding.  The stored `products`
value is a list in this model, so the guard
`!Array.isArray(products) || products.length === 0` reduces to emptiness. -/
def seedIfEmpty (now1 now2 : ℚ) (prods : List Obj) : List Obj :=
  if prods.length = 0 then seedProducts now1 now2 else prods

/-- The collection ids are pairwise distinct (as stored values). -/
def distinctIds (prods : List Obj) : Prop :=
  (prods.map (fun p => p.id)).Pairwise (fun a b => a ≠ b)

/-- The field is a string or absent (the shape JSON bodies of this API use for
text fields). -/
def strOrAbsent (v : Option JVal) : Prop :=
  v = none ∨ ∃ s, v = some (JVal.jstr s)

/-- The string content of a string-or-absent field, absent read as empty. -/
def fieldStr (v : Option JVal) : String :=
  match v with
  | some (JVal.jstr s) => s
  | _ => ""

/-- The id-assignment formula in the words of the specification:
`1 + max(0, max over items of numeric id, treating non-numeric/missing id
as 0)`. -/
def nextIdSpec (items : List Obj) : ℚ :=
  1 + List.foldr max 0 (items.map idNum)

/-- Example record with numeric id 1. -/
def exId1 : Obj := { id := some (JVal.jnum 1) }

/-- Example record with numeric id 5. -/
def exId5 : Obj := { id := some (JVal.jnum 5) }

/-- Example record with numeric id 3. -/
def exId3 : Obj := { id := some (JVal.jnum 3) }

/-- Example record with the non-numeric id "x". -/
def exIdX : Obj := { id := some (JVal.jstr "x") }

/-- Example stored record carrying zero likes and dislikes. -/
def likesProd : Obj :=
  { id := some (JVal.jnum 1)
    title := some (JVal.jstr "Foo")
    likes := some (JVal.jnum 0)
    dislikes := some (JVal.jnum 0) }

/-- Example PUT body carrying a likes field. -/
def likesPatch : Obj := { likes := some (JVal.jnum 7) }

/-- Example stored record whose id is the numeric string "3". -/
def strIdProd : Obj := { id := some (JVal.jstr "3") }

/-- Example POST body with only the two required fields. -/
def bodyFooBar : Obj :=
  { title := some (JVal.jstr "Foo")
    category := some (JVal.jstr "Bar") }

/-- Example stored record with several fields, for concrete update runs. -/
def fullProd : Obj :=
  { id := some (JVal.jnum 1)
    title := some (JVal.jstr "Lamp")
    description := some (JVal.jstr "Desk lamp")
    price := some (JVal.jnum 20)
    category := some (JVal.jstr "Home & Garden")
    subcategory := some (JVal.jstr "Lighting")
    images := some (JVal.jarr [])
    likes := some (JVal.jnum 2)
    dislikes := some (JVal.jnum 1)
    createdAt := some (JVal.jnum 100) }

/-- Example PUT body that only changes the price. -/
def price500 : Obj := { price := some (JVal.jnum 500) }

/-! ## Helper lemmas -/

theorem jsOrZero_eq (q : ℚ) : jsOrZero q = q := by
  unfold jsOrZero
  split <;> simp_all

theorem foldl_max_le_init (l : List Obj) (a : ℚ) :
    a ≤ l.foldl (fun m x => max m (idNum x)) a := by
  induction l generalizing a with
  | nil => simp
  | cons y ys ih =>
      simp only [List.foldl_cons]
      exact le_trans (le_max_left a (idNum y)) (ih (max a (idNum y)))

theorem mem_le_foldl_max (l : List Obj) (a : ℚ) (x : Obj) (hx : x ∈ l) :
    idNum x ≤ l.foldl (fun m y => max m (idNum y)) a := by
  induction l generalizing a with
  | nil => cases hx
  | cons y ys ih =>
      simp only [List.foldl_cons]
      rcases List.mem_cons.mp hx with h | h
      · subst h
        exact le_trans (le_max_right a (idNum x)) (foldl_max_le_init ys _)
      · exact ih _ h

theorem idNum_lt_nextId (prods : List Obj) (p : Obj) (hp : p ∈ prods) :
    idNum p < nextId prods := by
  unfold nextId
  rw [jsOrZero_eq]
  have h := mem_le_foldl_max prods 0 p hp
  linarith

theorem set_getElem_self {α : Type} (l : List α) (i : Nat) (h : i < l.length) :
    l.set i l[i] = l := by
  induction l generalizing i with
  | nil => simp at h
  | cons y ys ih =>
      cases i with
      | zero => simp
      | succ j =>
          simp only [List.set_cons_succ, List.cons.injEq, true_and]
          exact ih j (by simpa using h)

theorem map_id_set (prods : List Obj) (i : Nat) (h : i < prods.length) (next : Obj)
    (hid : next.id = (prods.getD i default).id) :
    (prods.set i next).map (fun p => p.id) = prods.map (fun p => p.id) := by
  rw [List.map_set]
  have hlen : i < (prods.map (fun p => p.id)).length := by simpa using h
  have hval : next.id = (prods.map (fun p => p.id))[i] := by
    rw [hid, List.getD_eq_getElem prods default h]
    simp
  rw [hval, set_getElem_self _ i hlen]

theorem findIdx?_some_facts {α : Type} (p : α → Bool) (l : List α) (i : Nat) (d : α)
    (h : List.findIdx? p l = some i) : i < l.length ∧ p (l.getD i d) = true := by
  rcases List.findIdx?_eq_some_iff_findIdx_eq.mp h with ⟨hlt, hidx⟩
  refine ⟨hlt, ?_⟩
  rw [List.getD_eq_getElem l d hlt]
  have := @List.findIdx_getElem _ p l (by rw [hidx]; exact hlt)
  simpa [hidx] using this

theorem truthy_strOrAbsent (v : Option JVal) (h : strOrAbsent v) :
    truthy v = true ↔ fieldStr v ≠ "" := by
  rcases h with h | ⟨s, h⟩ <;> subst h <;> simp [truthy, truthyV, fieldStr]

theorem numEq_none_right (a : Option ℚ) : numEq a none = false := by
  cases a <;> rfl

theorem idMatches_none (p : Obj) : idMatches none p = false := by
  unfold idMatches
  exact numEq_none_right _

theorem foldl_max_shift (l : List Obj) (a b : ℚ) :
    l.foldl (fun m x => max m (idNum x)) (max a b) =
      max a (l.foldl (fun m x => max m (idNum x)) b) := by
  induction l generalizing a b with
  | nil => simp
  | cons y ys ih =>
      simp only [List.foldl_cons]
      rw [max_assoc]
      exact ih a (max b (idNum y))

theorem foldl_max_eq_foldr (l : List Obj) :
    l.foldl (fun m x => max m (idNum x)) 0 = (l.map idNum).foldr max 0 := by
  induction l with
  | nil => rfl
  | cons y ys ih =>
      simp only [List.foldl_cons, List.map_cons, List.foldr_cons]
      rw [← ih, max_comm 0 (idNum y), foldl_max_shift ys (idNum y) 0]

/-! ## Claim theorems -/

/-- C6: `nextId(items)` equals `1 + max(0, maximum over items of the numeric
value of id, treating non-numeric/missing id as 0)`; in particular
`nextId([]) = 1`, `nextId([{id:1},{id:5},{id:3}]) = 6` and
`nextId([{id:"x"}]) = 1`.  It is a pure function of the collection, which the
model states by construction. -/
theorem nextId_matches_spec :
    (∀ items : List Obj, nextId items = nextIdSpec items) ∧
    nextId [] = 1 ∧ nextId [exId1, exId5, exId3] = 6 ∧ nextId [exIdX] = 1 := by
  refine ⟨?_, ?_, ?_, ?_⟩
  · intro items
    unfold nextId nextIdSpec
    rw [jsOrZero_eq, foldl_max_eq_foldr]
    ring
  · norm_num [nextId, jsOrZero]
  · have h1 : idNum exId1 = 1 := by decide
    have h5 : idNum exId5 = 5 := by decide
    have h3 : idNum exId3 = 3 := by decide
    norm_num [nextId, jsOrZero, List.foldl, h1, h5, h3, max_def]
  · have hx : idNum exIdX = 0 := by decide
    norm_num [nextId, jsOrZero, List.foldl, hx]

/-- C9: on an empty collection the bootstrap seeds exactly two products, with
ids 1 and 2, titled "iPhone 13 Pro" at price 799.0 and "Gaming Chair" at price
149.99; a non-empty collection is left unchanged. -/
theorem seed_bootstrap_spec (now1 now2 : ℚ) (prods : List Obj) :
    (∃ p1 p2, seedIfEmpty now1 now2 [] = [p1, p2] ∧
      p1.id = some (JVal.jnum 1) ∧ p1.title = some (JVal.jstr "iPhone 13 Pro") ∧
      p1.price = some (JVal.jnum 799.0) ∧
      p2.id = some (JVal.jnum 2) ∧ p2.title = some (JVal.jstr "Gaming Chair") ∧
      p2.price = some (JVal.jnum 149.99)) ∧
    (prods ≠ [] → seedIfEmpty now1 now2 prods = prods) := by
  constructor
  · exact ⟨_, _, rfl, rfl, rfl, rfl, rfl, rfl, rfl⟩
  · intro h
    unfold seedIfEmpty
    rw [if_neg]
    simpa [List.length_eq_zero] using h

/-- Witness for C9 at a concrete non-empty collection. -/
theorem seed_bootstrap_spec_witness : seedIfEmpty 1 2 [exId1] = [exId1] :=
  (seed_bootstrap_spec 1 2 [exId1]).2 (by decide)

/-- C10: update and delete match products by coercing both the path parameter
and the stored id to a number; a non-numeric path id matches nothing and
yields 404 with the collection unchanged, while a stored id that is the
numeric string "3" is matched (and deleted) by path parameter "3". -/
theorem numeric_id_matching (idParam : String) (body : Obj) (prods : List Obj)
    (h : jsStrToNum idParam = none) :
    updateP idParam body prods = (UpdateRes.notFound, prods) ∧
    deleteP idParam prods = (DeleteRes.notFound, prods) ∧
    idMatches (jsStrToNum "3") strIdProd = true ∧
    deleteP "3" [strIdProd] = (DeleteRes.noContent, []) := by
  refine ⟨?_, ?_, by decide, by decide⟩
  · simp only [updateP, h]
    rw [List.findIdx?_eq_none_iff.mpr (fun x _ => idMatches_none x)]
  · simp only [deleteP, h]
    have hf : prods.filter (fun p => !idMatches none p) = prods :=
      List.filter_eq_self.mpr (fun a _ => by simp [idMatches_none a])
    rw [hf]
    simp

/-- Witness for C10 at the non-numeric path parameter "x". -/
theorem numeric_id_matching_witness :
    updateP "x" bodyFooBar [exId1] = (UpdateRes.notFound, [exId1]) :=
  (numeric_id_matching "x" bodyFooBar [exId1] (by decide)).1

/-- C1: create fails with 400 and leaves the collection unchanged when title
or category is absent or empty; otherwise it returns a 201 record with a fresh
id from `nextId`, defaults for missing optional fields (empty description and
subcategory, price 0 for missing or non-numeric price, empty images for
non-array input, zero likes and dislikes), `createdAt` set to the current
time, and appends exactly that record to the collection. -/
theorem create_spec (now : ℚ) (body : Obj) (prods : List Obj)
    (ht : strOrAbsent body.title) (hc : strOrAbsent body.category) :
    (fieldStr body.title = "" ∨ fieldStr body.category = "" →
      createP now body prods = (CreateRes.badRequest, prods)) ∧
    (fieldStr body.title ≠ "" → fieldStr body.category ≠ "" →
      ∃ p, createP now body prods = (CreateRes.created p, prods ++ [p]) ∧
        p.id = some (JVal.jnum (nextId prods)) ∧
        p.title = body.title ∧ p.category = body.category ∧
        (body.description = none → p.description = some (JVal.jstr "")) ∧
        p.price = some (JVal.jnum (jsNumOr0 body.price)) ∧
        (jsNumber body.price = none → p.price = some (JVal.jnum 0)) ∧
        (body.subcategory = none → p.subcategory = some (JVal.jstr "")) ∧
        ((∀ xs, body.images ≠ some (JVal.jarr xs)) → p.images = some (JVal.jarr [])) ∧
        p.likes = some (JVal.jnum 0) ∧ p.dislikes = some (JVal.jnum 0) ∧
        p.createdAt = some (JVal.jnum now)) := by
  have htt := truthy_strOrAbsent body.title ht
  have hct := truthy_strOrAbsent body.category hc
  constructor
  · intro h
    have hT : truthy body.title = false ∨ truthy body.category = false := by
      rcases h with h | h
      · exact Or.inl (Bool.eq_false_iff.mpr (fun hb => (htt.mp hb) h))
      · exact Or.inr (Bool.eq_false_iff.mpr (fun hb => (hct.mp hb) h))
    unfold createP
    rcases hT with h2 | h2 <;> rw [h2] <;> simp
  · intro h1 h2
    have hb1 : truthy body.title = true := htt.mpr h1
    have hb2 : truthy body.category = true := hct.mpr h2
    unfold createP
    rw [hb1, hb2]
    simp only [Bool.not_true, Bool.or_self, Bool.false_or, if_neg, Bool.false_eq_true,
      not_false_eq_true]
    refine ⟨_, rfl, rfl, rfl, rfl, ?_, rfl, ?_, ?_, ?_, rfl, rfl, rfl⟩
    · intro hd
      rw [hd]
      rfl
    · intro hp
      simp [jsNumOr0, hp]
    · intro hs
      rw [hs]
      rfl
    · intro hi
      cases hv : body.images with
      | none => rfl
      | some v =>
          cases v with
          | jarr xs => exact absurd hv (hi xs)
          | jnum q => rfl
          | jstr s => rfl
          | jbool b => rfl
          | jnull => rfl

/-- Witness for C1: creating with only title "Foo" and category "Bar" on the
empty collection. -/
theorem create_spec_witness :
    ∃ p, createP 5 bodyFooBar [] = (CreateRes.created p, [] ++ [p]) ∧
      p.id = some (JVal.jnum (nextId [])) ∧
      p.title = bodyFooBar.title ∧ p.category = bodyFooBar.category ∧
      (bodyFooBar.description = none → p.description = some (JVal.jstr "")) ∧
      p.price = some (JVal.jnum (jsNumOr0 bodyFooBar.price)) ∧
      (jsNumber bodyFooBar.price = none → p.price = some (JVal.jnum 0)) ∧
      (bodyFooBar.subcategory = none → p.subcategory = some (JVal.jstr "")) ∧
      ((∀ xs, bodyFooBar.images ≠ some (JVal.jarr xs)) → p.images = some (JVal.jarr [])) ∧
      p.likes = some (JVal.jnum 0) ∧ p.dislikes = some (JVal.jnum 0) ∧
      p.createdAt = some (JVal.jnum 5) :=
  (create_spec 5 bodyFooBar [] (Or.inr ⟨"Foo", rfl⟩) (Or.inr ⟨"Bar", rfl⟩)).2
    (by decide) (by decide)

/-- C2: update returns 404 and leaves the collection unchanged when no product
matches the id; otherwise the first matching record is replaced by the shallow
merge of the patch over it (patch fields overwrite, absent patch fields keep
the prior value), with the original id preserved regardless of any id in the
patch, and the merged record is returned. -/
theorem update_spec (idParam : String) (body : Obj) (prods : List Obj) :
    ((∀ p ∈ prods, idMatches (jsStrToNum idParam) p = false) →
      updateP idParam body prods = (UpdateRes.notFound, prods)) ∧
    (∀ i, prods.findIdx? (fun p => idMatches (jsStrToNum idParam) p) = some i →
      ∃ prev next, prev = prods.getD i default ∧ prev ∈ prods ∧
        idMatches (jsStrToNum idParam) prev = true ∧
        updateP idParam body prods = (UpdateRes.updated next, prods.set i next) ∧
        next.id = prev.id ∧
        (body.title = none → next.title = prev.title) ∧
        (∀ v, body.title = some v → next.title = some v) ∧
        (body.description = none → next.description = prev.description) ∧
        (∀ v, body.description = some v → next.description = some v) ∧
        (body.price = none → next.price = prev.price) ∧
        (∀ v, body.price = some v → next.price = some v) ∧
        (body.category = none → next.category = prev.category) ∧
        (∀ v, body.category = some v → next.category = some v) ∧
        (body.subcategory = none → next.subcategory = prev.subcategory) ∧
        (∀ v, body.subcategory = some v → next.subcategory = some v) ∧
        (body.images = none → next.images = prev.images) ∧
        (∀ v, body.images = some v → next.images = some v) ∧
        (body.likes = none → next.likes = prev.likes) ∧
        (∀ v, body.likes = some v → next.likes = some v) ∧
        (body.dislikes = none → next.dislikes = prev.dislikes) ∧
        (∀ v, body.dislikes = some v → next.dislikes = some v) ∧
        (body.createdAt = none → next.createdAt = prev.createdAt) ∧
        (∀ v, body.createdAt = some v → next.createdAt = some v)) := by
  constructor
  · intro h
    simp only [updateP]
    rw [List.findIdx?_eq_none_iff.mpr h]
  · intro i hi
    obtain ⟨hlt, hpred⟩ := findIdx?_some_facts _ prods i default hi
    have hmem : prods.getD i default ∈ prods := by
      rw [List.getD_eq_getElem prods default hlt]
      exact List.getElem_mem hlt
    have heq : updateP idParam body prods =
        (UpdateRes.updated
          ({ mergeObj (prods.getD i default) body with id := (prods.getD i default).id }),
         prods.set i
          ({ mergeObj (prods.getD i default) body with id := (prods.getD i default).id })) := by
      simp only [updateP]
      rw [hi]
    refine ⟨prods.getD i default, _, rfl, hmem, hpred, heq, rfl,
      ?_, ?_, ?_, ?_, ?_, ?_, ?_, ?_, ?_, ?_, ?_, ?_, ?_, ?_, ?_, ?_, ?_, ?_⟩ <;>
      first
        | (intro h; simp [mergeObj, ovr, h])
        | (intro v h; simp [mergeObj, ovr, h])

theorem filter_not_length {α : Type} (p : α → Bool) (l : List α) :
    (l.filter p).length + (l.filter (fun a => !p a)).length = l.length := by
  induction l with
  | nil => rfl
  | cons x xs ih => cases hx : p x <;> simp [List.filter_cons, hx] <;> omega

/-- C3: delete returns 404 with the persisted collection unchanged when no
product matches the id; otherwise exactly one record (the matching one) is
removed, all non-matching records survive, the response carries no content,
and a second delete of the same id returns 404 without further change. -/
theorem delete_spec (idParam : String) (prods : List Obj)
    (huniq : prods.countP (fun p => idMatches (jsStrToNum idParam) p) ≤ 1) :
    ((∀ p ∈ prods, idMatches (jsStrToNum idParam) p = false) →
      deleteP idParam prods = (DeleteRes.notFound, prods)) ∧
    (∀ p ∈ prods, idMatches (jsStrToNum idParam) p = true →
      (deleteP idParam prods).1 = DeleteRes.noContent ∧
      (deleteP idParam prods).2 =
        prods.filter (fun x => !idMatches (jsStrToNum idParam) x) ∧
      (deleteP idParam prods).2.length + 1 = prods.length ∧
      p ∉ (deleteP idParam prods).2 ∧
      (∀ x ∈ prods, idMatches (jsStrToNum idParam) x = false →
        x ∈ (deleteP idParam prods).2) ∧
      deleteP idParam ((deleteP idParam prods).2) =
        (DeleteRes.notFound, (deleteP idParam prods).2)) := by
  constructor
  · intro h
    simp only [deleteP]
    have hf : prods.filter (fun p => !idMatches (jsStrToNum idParam) p) = prods :=
      List.filter_eq_self.mpr (fun a ha => by simp [h a ha])
    rw [hf]
    simp
  · intro p hp hmatch
    have hcnt : prods.countP (fun x => idMatches (jsStrToNum idParam) x) = 1 :=
      Nat.le_antisymm huniq (List.countP_pos_iff.mpr ⟨p, hp, hmatch⟩)
    have h1 : (prods.filter (fun x => idMatches (jsStrToNum idParam) x)).length = 1 := by
      rw [← List.countP_eq_length_filter]
      exact hcnt
    have hsum := filter_not_length (fun x => idMatches (jsStrToNum idParam) x) prods
    have hlen : (prods.filter (fun x => !idMatches (jsStrToNum idParam) x)).length + 1 =
        prods.length := by omega
    have hne : (prods.filter (fun x => !idMatches (jsStrToNum idParam) x)).length ≠
        prods.length := by omega
    have heq : deleteP idParam prods =
        (DeleteRes.noContent, prods.filter (fun x => !idMatches (jsStrToNum idParam) x)) := by
      simp only [deleteP]
      rw [if_neg hne]
    refine ⟨by rw [heq], by rw [heq], ?_, ?_, ?_, ?_⟩
    · rw [heq]
      exact hlen
    · rw [heq]
      intro hmem
      rcases List.mem_filter.mp hmem with ⟨_, hq⟩
      simp [hmatch] at hq
    · intro x hx hxf
      rw [heq]
      exact List.mem_filter.mpr ⟨hx, by simp [hxf]⟩
    · rw [heq]
      simp only [deleteP]
      have hself : (prods.filter (fun x => !idMatches (jsStrToNum idParam) x)).filter
          (fun x => !idMatches (jsStrToNum idParam) x) =
          prods.filter (fun x => !idMatches (jsStrToNum idParam) x) :=
        List.filter_eq_self.mpr (fun a ha => (List.mem_filter.mp ha).2)
      rw [hself]
      simp

/-- Witness for C2: updating the stored product of id 1 with a price-only
patch. -/
theorem update_spec_witness :
    ∃ prev next, prev = [fullProd].getD 0 default ∧ prev ∈ [fullProd] ∧
      idMatches (jsStrToNum "1") prev = true ∧
      updateP "1" price500 [fullProd] = (UpdateRes.updated next, [fullProd].set 0 next) ∧
      next.id = prev.id ∧
      (price500.title = none → next.title = prev.title) ∧
      (∀ v, price500.title = some v → next.title = some v) ∧
      (price500.description = none → next.description = prev.description) ∧
      (∀ v, price500.description = some v → next.description = some v) ∧
      (price500.price = none → next.price = prev.price) ∧
      (∀ v, price500.price = some v → next.price = some v) ∧
      (price500.category = none → next.category = prev.category) ∧
      (∀ v, price500.category = some v → next.category = some v) ∧
      (price500.subcategory = none → next.subcategory = prev.subcategory) ∧
      (∀ v, price500.subcategory = some v → next.subcategory = some v) ∧
      (price500.images = none → next.images = prev.images) ∧
      (∀ v, price500.images = some v → next.images = some v) ∧
      (price500.likes = none → next.likes = prev.likes) ∧
      (∀ v, price500.likes = some v → next.likes = some v) ∧
      (price500.dislikes = none → next.dislikes = prev.dislikes) ∧
      (∀ v, price500.dislikes = some v → next.dislikes = some v) ∧
      (price500.createdAt = none → next.createdAt = prev.createdAt) ∧
      (∀ v, price500.createdAt = some v → next.createdAt = some v) :=
  (update_spec "1" price500 [fullProd]).2 0 (by decide)

/-- Witness for C3: deleting the stored product of id 1. -/
theorem delete_spec_witness :
    (deleteP "1" [fullProd]).1 = DeleteRes.noContent ∧
    (deleteP "1" [fullProd]).2 =
      [fullProd].filter (fun x => !idMatches (jsStrToNum "1") x) ∧
    (deleteP "1" [fullProd]).2.length + 1 = [fullProd].length ∧
    fullProd ∉ (deleteP "1" [fullProd]).2 ∧
    (∀ x ∈ [fullProd], idMatches (jsStrToNum "1") x = false →
      x ∈ (deleteP "1" [fullProd]).2) ∧
    deleteP "1" ((deleteP "1" [fullProd]).2) =
      (DeleteRes.notFound, (deleteP "1" [fullProd]).2) :=
  (delete_spec "1" [fullProd] (by decide)).2 fullProd (by decide) (by decide)

theorem valStr_jsOrD (v : Option JVal) (h : strOrAbsent v) :
    valStr (jsOrD v (JVal.jstr "")) = fieldStr v := by
  rcases h with h | ⟨s, h⟩ <;> subst h
  · rfl
  · by_cases hs : s = "" <;> simp [jsOrD, truthyV, valStr, fieldStr, hs]

theorem mem_sortItems (s : String) (items : List Obj) (x : Obj) :
    x ∈ sortItems s items ↔ x ∈ items := by
  unfold sortItems
  split_ifs <;> exact List.mem_mergeSort

theorem mem_applyFilters (q c sc : Option String) (prods : List Obj) (x : Obj) :
    x ∈ applyFilters q c sc prods ↔
      x ∈ prods ∧
      (qTruthy c = true → (x.category == some (JVal.jstr (c.getD ""))) = true) ∧
      (qTruthy sc = true → (x.subcategory == some (JVal.jstr (sc.getD ""))) = true) ∧
      (qTruthy q = true → textMatch (lowerStr (q.getD "")) x = true) := by
  unfold applyFilters
  by_cases hc : qTruthy c <;> by_cases hsc : qTruthy sc <;> by_cases hq : qTruthy q <;>
    simp [hc, hsc, hq, List.mem_filter, and_assoc] <;> tauto

/-- C4: when a category (resp. subcategory) filter is provided and non-empty, a
product is kept only if its field is exactly string-equal to the filter; when a
text query is provided, a product is kept only if the lowercased query is a
substring of its lowercased title or lowercased description (absent field read
as the empty string); all provided filters compose with logical AND; and list
never mutates the stored collection. -/
theorem list_filter_spec (q c sc sortQ : Option String) (prods : List Obj)
    (hf : ∀ p ∈ prods, strOrAbsent p.title ∧ strOrAbsent p.description) :
    (listP q c sc sortQ prods).2 = prods ∧
    (∀ p, p ∈ (listP q c sc sortQ prods).1 ↔
      (p ∈ prods ∧
        (∀ s, c = some s → s ≠ "" → p.category = some (JVal.jstr s)) ∧
        (∀ s, sc = some s → s ≠ "" → p.subcategory = some (JVal.jstr s)) ∧
        (∀ s, q = some s → s ≠ "" →
          (includesStr (lowerStr (fieldStr p.title)) (lowerStr s) ||
           includesStr (lowerStr (fieldStr p.description)) (lowerStr s)) = true))) := by
  refine ⟨rfl, ?_⟩
  intro p
  have hshape : (listP q c sc sortQ prods).1 =
      sortItems (sortQ.getD "newest") (applyFilters q c sc prods) := rfl
  rw [hshape, mem_sortItems, mem_applyFilters]
  constructor
  · rintro ⟨hp, h1, h2, h3⟩
    obtain ⟨hT, hD⟩ := hf p hp
    refine ⟨hp, ?_, ?_, ?_⟩
    · intro s hs hne
      have hct : qTruthy c = true := by rw [hs]; simpa [qTruthy] using hne
      have h := h1 hct
      rw [hs] at h
      simpa using h
    · intro s hs hne
      have hct : qTruthy sc = true := by rw [hs]; simpa [qTruthy] using hne
      have h := h2 hct
      rw [hs] at h
      simpa using h
    · intro s hs hne
      have hqt : qTruthy q = true := by rw [hs]; simpa [qTruthy] using hne
      have h := h3 hqt
      rw [hs] at h
      unfold textMatch at h
      rw [valStr_jsOrD _ hT, valStr_jsOrD _ hD] at h
      simpa using h
  · rintro ⟨hp, h1, h2, h3⟩
    obtain ⟨hT, hD⟩ := hf p hp
    refine ⟨hp, ?_, ?_, ?_⟩
    · intro hct
      cases c with
      | none => simp [qTruthy] at hct
      | some s =>
          have hne : s ≠ "" := by simpa [qTruthy] using hct
          simp [h1 s rfl hne]
    · intro hct
      cases sc with
      | none => simp [qTruthy] at hct
      | some s =>
          have hne : s ≠ "" := by simpa [qTruthy] using hct
          simp [h2 s rfl hne]
    · intro hqt
      cases q with
      | none => simp [qTruthy] at hqt
      | some s =>
          have hne : s ≠ "" := by simpa [qTruthy] using hqt
          have h := h3 s rfl hne
          unfold textMatch
          rw [valStr_jsOrD _ hT, valStr_jsOrD _ hD]
          simpa using h

/-- Witness for C4: a one-record collection with string-typed fields queried
with the text filter "chair". -/
theorem list_filter_spec_witness :
    (listP (some "chair") none none none [likesProd]).2 = [likesProd] ∧
    (∀ p, p ∈ (listP (some "chair") none none none [likesProd]).1 ↔
      (p ∈ [likesProd] ∧
        (∀ s, (none : Option String) = some s → s ≠ "" → p.category = some (JVal.jstr s)) ∧
        (∀ s, (none : Option String) = some s → s ≠ "" → p.subcategory = some (JVal.jstr s)) ∧
        (∀ s, (some "chair" : Option String) = some s → s ≠ "" →
          (includesStr (lowerStr (fieldStr p.title)) (lowerStr s) ||
           includesStr (lowerStr (fieldStr p.description)) (lowerStr s)) = true))) :=
  list_filter_spec (some "chair") none none none [likesProd]
    (by intro p hp; rw [List.mem_singleton] at hp; subst hp
        exact ⟨Or.inr ⟨"Foo", rfl⟩, Or.inl rfl⟩)

theorem pairwise_mergeSort_of (le : Obj → Obj → Bool) (R : Obj → Obj → Prop)
    (hR : ∀ a b, le a b = true → R a b)
    (htrans : ∀ a b c, le a b = true → le b c = true → le a c = true)
    (htotal : ∀ a b, (le a b || le b a) = true)
    (items : List Obj) : (items.mergeSort le).Pairwise R :=
  (List.sorted_mergeSort htrans htotal items).imp (fun hab => hR _ _ hab)

/-- C5: with sort=price-asc the returned items are in ascending order of the
price key, with sort=price-desc in descending order, and with any other sort
value (including the default) in descending order of the createdAt key; the
output is a permutation of the filtered items (so ties may appear in any
relative order), and a missing price or createdAt is treated as 0. -/
theorem sort_spec (q c sc : Option String) (prods : List Obj) :
    (listP q c sc (some "price-asc") prods).1.Pairwise
      (fun a b => priceKey a ≤ priceKey b) ∧
    (listP q c sc (some "price-desc") prods).1.Pairwise
      (fun a b => priceKey b ≤ priceKey a) ∧
    (∀ sortQ : Option String, sortQ.getD "newest" ≠ "price-asc" →
      sortQ.getD "newest" ≠ "price-desc" →
      (listP q c sc sortQ prods).1.Pairwise (fun a b => createdKey b ≤ createdKey a)) ∧
    (∀ sortQ : Option String, (listP q c sc sortQ prods).1.Perm (applyFilters q c sc prods)) ∧
    (∀ p : Obj, p.price = none → priceKey p = 0) ∧
    (∀ p : Obj, p.createdAt = none → createdKey p = 0) := by
  refine ⟨?_, ?_, ?_, ?_, ?_, ?_⟩
  · have hshape : (listP q c sc (some "price-asc") prods).1 =
        (applyFilters q c sc prods).mergeSort
          (fun a b => decide (priceKey a ≤ priceKey b)) := by
      simp [listP, sortItems]
    rw [hshape]
    exact pairwise_mergeSort_of _ _ (fun a b h => by simpa using h)
      (fun a b cc h1 h2 => by simp at h1 h2 ⊢; exact le_trans h1 h2)
      (fun a b => by simp [le_total]) _
  · have hshape : (listP q c sc (some "price-desc") prods).1 =
        (applyFilters q c sc prods).mergeSort
          (fun a b => decide (priceKey b ≤ priceKey a)) := by
      simp [listP, sortItems]
    rw [hshape]
    exact pairwise_mergeSort_of _ _ (fun a b h => by simpa using h)
      (fun a b cc h1 h2 => by simp at h1 h2 ⊢; exact le_trans h2 h1)
      (fun a b => by simp [le_total]) _
  · intro sortQ h1 h2
    have hshape : (listP q c sc sortQ prods).1 =
        (applyFilters q c sc prods).mergeSort
          (fun a b => decide (createdKey b ≤ createdKey a)) := by
      simp only [listP, sortItems]
      rw [if_neg h1, if_neg h2]
    rw [hshape]
    exact pairwise_mergeSort_of _ _ (fun a b h => by simpa using h)
      (fun a b cc h1 h2 => by simp at h1 h2 ⊢; exact le_trans h2 h1)
      (fun a b => by simp [le_total]) _
  · intro sortQ
    have hshape : (listP q c sc sortQ prods).1 =
        sortItems (sortQ.getD "newest") (applyFilters q c sc prods) := rfl
    rw [hshape]
    unfold sortItems
    split_ifs <;> exact List.mergeSort_perm _ _
  · intro p h
    simp [priceKey, jsOrD, jsNumberV, h]
  · intro p h
    simp [createdKey, jsOrD, jsNumberV, h]

/-- Witness for C5: the default sort on a concrete collection. -/
theorem sort_spec_witness :
    (listP none none none none [fullProd]).1.Pairwise
      (fun a b => createdKey b ≤ createdKey a) :=
  (sort_spec none none none [fullProd]).2.2.1 none (by decide) (by decide)

/-- C7: pairwise-distinct product ids are preserved by every exposed
operation: create appends a record whose numeric id is strictly greater than
every existing numeric id, update forces the merged record to keep the
original id, delete only removes records, and list does not touch the stored
collection. -/
theorem ids_distinct_invariant (now : ℚ) (body patch : Obj) (idU idD : String)
    (q c sc sortQ : Option String) (prods : List Obj) (h : distinctIds prods) :
    (∀ p ∈ prods, idNum p < nextId prods) ∧
    distinctIds (createP now body prods).2 ∧
    distinctIds (updateP idU patch prods).2 ∧
    distinctIds (deleteP idD prods).2 ∧
    (listP q c sc sortQ prods).2 = prods := by
  refine ⟨fun p hp => idNum_lt_nextId prods p hp, ?_, ?_, ?_, rfl⟩
  · by_cases hb : (!truthy body.title || !truthy body.category) = true
    · have heq : (createP now body prods).2 = prods := by
        simp only [createP]
        rw [if_pos hb]
      rw [heq]
      exact h
    · have hb2 : (!truthy body.title || !truthy body.category) = false :=
        Bool.eq_false_iff.mpr hb
      have heq : (createP now body prods).2 = prods ++
          [{ id := some (JVal.jnum (nextId prods))
             title := body.title
             description := some (jsOrD body.description (JVal.jstr ""))
             price := some (JVal.jnum (jsNumOr0 body.price))
             category := body.category
             subcategory := some (jsOrD body.subcategory (JVal.jstr ""))
             images := some (arrOrEmpty ((body.images).getD (JVal.jarr [])))
             likes := some (JVal.jnum 0)
             dislikes := some (JVal.jnum 0)
             createdAt := some (JVal.jnum now) }] := by
        simp only [createP, hb2, Bool.false_eq_true, if_false]
      rw [heq]
      unfold distinctIds
      rw [List.map_append, List.pairwise_append]
      refine ⟨h, by simp, ?_⟩
      intro a ha b hb3
      simp only [List.map_cons, List.map_nil, List.mem_singleton] at hb3
      subst hb3
      rcases List.mem_map.mp ha with ⟨p, hp, rfl⟩
      have hlt := idNum_lt_nextId prods p hp
      cases hid : p.id with
      | none => simp
      | some v =>
          cases v with
          | jnum qq =>
              have hq : idNum p = qq := by
                simp [idNum, jsNumOr0, jsNumber, jsNumberV, hid]
              rw [hq] at hlt
              simp only [ne_eq, Option.some.injEq, JVal.jnum.injEq]
              exact ne_of_lt hlt
          | jstr s => simp
          | jbool b4 => simp
          | jarr xs => simp
          | jnull => simp
  · rcases hfi : prods.findIdx? (fun p => idMatches (jsStrToNum idU) p) with _ | i
    · have heq : (updateP idU patch prods).2 = prods := by
        simp only [updateP]
        rw [hfi]
      rw [heq]
      exact h
    · obtain ⟨hlt, -⟩ := findIdx?_some_facts _ prods i default hfi
      have heq : (updateP idU patch prods).2 =
          prods.set i ({ mergeObj (prods.getD i default) patch with
            id := (prods.getD i default).id }) := by
        simp only [updateP]
        rw [hfi]
      rw [heq]
      unfold distinctIds
      rw [map_id_set prods i hlt
        ({ mergeObj (prods.getD i default) patch with id := (prods.getD i default).id }) rfl]
      exact h
  · by_cases hlen : (prods.filter (fun p => !idMatches (jsStrToNum idD) p)).length =
        prods.length
    · have heq : (deleteP idD prods).2 = prods := by
        simp only [deleteP]
        rw [if_pos hlen]
      rw [heq]
      exact h
    · have heq : (deleteP idD prods).2 =
          prods.filter (fun p => !idMatches (jsStrToNum idD) p) := by
        simp only [deleteP]
        rw [if_neg hlen]
      rw [heq]
      exact List.Pairwise.sublist (List.Sublist.map _ (List.filter_sublist prods)) h

/-- Witness for C7: the invariant after a create on a concrete collection. -/
theorem ids_distinct_invariant_witness :
    distinctIds (createP 5 bodyFooBar [fullProd]).2 :=
  (ids_distinct_invariant 5 bodyFooBar price500 "1" "1" none none none none [fullProd]
    (by simp [distinctIds])).2.1

/-- Counterexample to C8 as stated: updating with a patch that itself carries a
likes field does change the stored likes value (the shallow merge copies every
patch field, likes and dislikes included). -/
theorem likes_mutated_by_update :
    likesProd.likes = some (JVal.jnum 0) ∧
    (updateP "1" likesPatch [likesProd]).2 =
      [{ likesProd with likes := some (JVal.jnum 7) }] ∧
    ({ likesProd with likes := some (JVal.jnum 7) } : Obj).likes ≠ likesProd.likes := by
  refine ⟨rfl, by decide, by decide⟩

theorem map_field_set (f : Obj → Option JVal) (prods : List Obj) (i : Nat)
    (h : i < prods.length) (next : Obj) (hf : f next = f (prods.getD i default)) :
    (prods.set i next).map f = prods.map f := by
  rw [List.map_set]
  have hlen : i < (prods.map f).length := by simpa using h
  have hval : f next = (prods.map f)[i] := by
    rw [hf, List.getD_eq_getElem prods default h]
    simp
  rw [hval, set_getElem_self _ i hlen]

/-- C8 amended: likes and dislikes are initialized to 0 by create; list and
delete never change any record's likes or dislikes; an update whose patch
contains no likes or dislikes field leaves the likes and dislikes of every
record (position by position) exactly as they were; and whenever the patch
does supply a likes (resp. dislikes) value, the merged record returned by
update carries exactly that value. -/
theorem likes_frame (now : ℚ) (body patch : Obj) (idU idD : String)
    (q c sc sortQ : Option String) (prods : List Obj) :
    (∀ p ps, createP now body prods = (CreateRes.created p, ps) →
      p.likes = some (JVal.jnum 0) ∧ p.dislikes = some (JVal.jnum 0) ∧
      ps = prods ++ [p]) ∧
    (patch.likes = none → patch.dislikes = none →
      (updateP idU patch prods).2.map (fun x => x.likes) =
        prods.map (fun x => x.likes) ∧
      (updateP idU patch prods).2.map (fun x => x.dislikes) =
        prods.map (fun x => x.dislikes)) ∧
    (∀ v, patch.likes = some v → ∀ nxt,
      (updateP idU patch prods).1 = UpdateRes.updated nxt → nxt.likes = some v) ∧
    (∀ v, patch.dislikes = some v → ∀ nxt,
      (updateP idU patch prods).1 = UpdateRes.updated nxt → nxt.dislikes = some v) ∧
    (∀ x ∈ (deleteP idD prods).2, x ∈ prods) ∧
    (listP q c sc sortQ prods).2 = prods := by
  refine ⟨?_, ?_, ?_, ?_, ?_, rfl⟩
  · intro p ps hcp
    by_cases hb : (!truthy body.title || !truthy body.category) = true
    · have heq : createP now body prods = (CreateRes.badRequest, prods) := by
        simp only [createP]
        rw [if_pos hb]
      rw [heq] at hcp
      simp at hcp
    · have hb2 : (!truthy body.title || !truthy body.category) = false :=
        Bool.eq_false_iff.mpr hb
      have heq : createP now body prods = (CreateRes.created
          { id := some (JVal.jnum (nextId prods))
            title := body.title
            description := some (jsOrD body.description (JVal.jstr ""))
            price := some (JVal.jnum (jsNumOr0 body.price))
            category := body.category
            subcategory := some (jsOrD body.subcategory (JVal.jstr ""))
            images := some (arrOrEmpty ((body.images).getD (JVal.jarr [])))
            likes := some (JVal.jnum 0)
            dislikes := some (JVal.jnum 0)
            createdAt := some (JVal.jnum now) },
          prods ++
          [{ id := some (JVal.jnum (nextId prods))
             title := body.title
             description := some (jsOrD body.description (JVal.jstr ""))
             price := some (JVal.jnum (jsNumOr0 body.price))
             category := body.category
             subcategory := some (jsOrD body.subcategory (JVal.jstr ""))
             images := some (arrOrEmpty ((body.images).getD (JVal.jarr [])))
             likes := some (JVal.jnum 0)
             dislikes := some (JVal.jnum 0)
             createdAt := some (JVal.jnum now) }]) := by
        simp only [createP, hb2, Bool.false_eq_true, if_false]
      rw [heq] at hcp
      simp only [Prod.mk.injEq, CreateRes.created.injEq] at hcp
      obtain ⟨hp, hps⟩ := hcp
      subst hp
      subst hps
      exact ⟨rfl, rfl, rfl⟩
  · intro hl hd
    rcases hfi : prods.findIdx? (fun p => idMatches (jsStrToNum idU) p) with _ | i
    · have heq : (updateP idU patch prods).2 = prods := by
        simp only [updateP]
        rw [hfi]
      rw [heq]
      exact ⟨rfl, rfl⟩
    · obtain ⟨hlt, -⟩ := findIdx?_some_facts _ prods i default hfi
      have heq : (updateP idU patch prods).2 =
          prods.set i ({ mergeObj (prods.getD i default) patch with
            id := (prods.getD i default).id }) := by
        simp only [updateP]
        rw [hfi]
      rw [heq]
      constructor
      · exact map_field_set (fun x => x.likes) prods i hlt
          ({ mergeObj (prods.getD i default) patch with id := (prods.getD i default).id })
          (by simp [mergeObj, ovr, hl])
      · exact map_field_set (fun x => x.dislikes) prods i hlt
          ({ mergeObj (prods.getD i default) patch with id := (prods.getD i default).id })
          (by simp [mergeObj, ovr, hd])
  · intro v hv nxt hnxt
    rcases hfi : prods.findIdx? (fun p => idMatches (jsStrToNum idU) p) with _ | i
    · have heq : (updateP idU patch prods).1 = UpdateRes.notFound := by
        simp only [updateP]
        rw [hfi]
      rw [heq] at hnxt
      simp at hnxt
    · have heq : (updateP idU patch prods).1 = UpdateRes.updated
          ({ mergeObj (prods.getD i default) patch with
            id := (prods.getD i default).id }) := by
        simp only [updateP]
        rw [hfi]
      rw [heq] at hnxt
      injection hnxt with h2
      subst h2
      simp [mergeObj, ovr, hv]
  · intro v hv nxt hnxt
    rcases hfi : prods.findIdx? (fun p => idMatches (jsStrToNum idU) p) with _ | i
    · have heq : (updateP idU patch prods).1 = UpdateRes.notFound := by
        simp only [updateP]
        rw [hfi]
      rw [heq] at hnxt
      simp at hnxt
    · have heq : (updateP idU patch prods).1 = UpdateRes.updated
          ({ mergeObj (prods.getD i default) patch with
            id := (prods.getD i default).id }) := by
        simp only [updateP]
        rw [hfi]
      rw [heq] at hnxt
      injection hnxt with h2
      subst h2
      simp [mergeObj, ovr, hv]
  · intro x hx
    by_cases hlen : (prods.filter (fun p => !idMatches (jsStrToNum idD) p)).length =
        prods.length
    · have heq : (deleteP idD prods).2 = prods := by
        simp only [deleteP]
        rw [if_pos hlen]
      rw [heq] at hx
      exact hx
    · have heq : (deleteP idD prods).2 =
          prods.filter (fun p => !idMatches (jsStrToNum idD) p) := by
        simp only [deleteP]
        rw [if_neg hlen]
      rw [heq] at hx
      exact (List.mem_filter.mp hx).1

/-- Witness for the amended C8: a price-only update on a concrete collection
leaves the stored likes and dislikes columns unchanged. -/
theorem likes_frame_witness :
    (updateP "1" price500 [likesProd]).2.map (fun x => x.likes) =
      [likesProd].map (fun x => x.likes) ∧
    (updateP "1" price500 [likesProd]).2.map (fun x => x.dislikes) =
      [likesProd].map (fun x => x.dislikes) :=
  (likes_frame 5 bodyFooBar price500 "1" "1" none none none none [likesProd]).2.1 rfl rfl
